import Mathlib

/-! A shallow embedding of `src/gen-db-scripts/main.py` from the
`arthropod_diversity` repository: a one-shot, cache-accelerated snapshot
extractor whose core is the taxonomic closure resolver
(`get_taxaenumtree_table`).  Pure data is modelled with Lean lists and
structures; the pandas dataframes returned by `pd.read_sql` carry a default
integer `RangeIndex`, which we model explicitly where row-index labels matter
(`Label`).  Fallible effects (a source query that can fail) are modelled with
`Option`; the cache artifact of each logical table is an `Option` value
(present or absent), and each fetch helper returns the triple
(result, cache artifact after the call, number of source queries issued).
The unbounded `while True` loop of the resolver is embedded with explicit
fuel; termination of the Python loop corresponds to success of the embedding
for some fuel. -/

/-- A row of the `taxaenumtree` table as used by the resolver: the taxon
identifier `tid` and its nullable parent identifier `parenttid`
(main.py, columns selected at lines 166-172/183-189). -/
structure TaxaRow where
  tid : Nat
  parenttid : Option Nat
deriving DecidableEq, Repr

/-- A fetched round of `taxaenumtree` rows (one pandas dataframe). -/
abbrev TaxaTable := List TaxaRow

/-- The meaning of `pd.read_sql("select ... from taxaenumtree where tid in
(tids)", ...)` (main.py lines 166-172 and 183-189): the rows of the source
table whose `tid` is a member of the given identifier list. -/
def fetchTaxa (table : TaxaTable) (tids : List Nat) : TaxaTable :=
  table.filter fun r => decide (r.tid ∈ tids)

/-- Main.py lines 176-178: the next frontier is derived from the
most-recently-fetched round only: take the round's `parenttid` column, drop
nulls (`~pd.isna`), drop values equal to the same row's `tid`
(`parenttid != tid`), and form the distinct values (`np.unique`; `dedup`
keeps the distinct values without the sort, which no later step relies on). -/
def nextFrontier (rows : TaxaTable) : List Nat :=
  (rows.filterMap fun r =>
    match r.parenttid with
    | none => none
    | some p => if p = r.tid then none else some p).dedup

/-- Main.py lines 175-191, the `while True` expansion loop.  `acc` is
`taxa_recurse`, most recent round first (`acc.headI` is `taxa_recurse[-1]`);
`src tids` is the round query `pd.read_sql(... where tid in (tids))`, `none`
meaning the query raised; `q` counts source queries issued so far.  `fuel`
makes the unbounded loop a total function: fuel 0 returns no result, which is
also how a failed query is reported, and the loop itself exits (with the
accumulator) exactly when the derived frontier `tids` is empty
(line 179-180), the sole `break`. -/
def taxaRecurse (src : List Nat → Option TaxaTable) :
    Nat → List TaxaTable → Nat → Option (List TaxaTable) × Nat
  | 0, _, q => (none, q)
  | fuel+1, acc, q =>
    let tids := nextFrontier acc.headI
    if tids.isEmpty then (some acc, q)
    else
      match src tids with
      | none => (none, q+1)
      | some rows => taxaRecurse src fuel (rows :: acc) (q+1)

/-- The value the `pandas.DataFrame` constructor builds from a ragged list
of round frames: a one-column object frame whose R rows hold the nested
round frames themselves (not their rows). -/
structure ObjFrame where
  nested : List TaxaTable
deriving DecidableEq, Repr

/-- Main.py line 193, `pd.DataFrame(data=taxa_recurse)` applied to the list
of round frames in fetch order.  The constructor does not concatenate a
list of dataframes row-wise (`pd.concat` would): each round frame is
two-dimensional (`ndim == 2`), so the list is routed through the ndarray
constructor path.  When the round frames all have the same number of rows —
in particular whenever there is exactly one round — the stacked array is
3-d and the constructor raises `ValueError: Must pass 2-d input`, modelled
as `none` (the fatal-error path: the run aborts); with ragged round sizes
the result is the one-column object frame nesting the round frames. -/
def taxaFinalFrame (taxa_recurse : List TaxaTable) : Option ObjFrame :=
  if taxa_recurse.all fun rd => rd.length == taxa_recurse.headI.length then
    none
  else some ⟨taxa_recurse⟩

/-- Main.py lines 162-200, `get_taxaenumtree_table`: on a cache hit the
pickled artifact is returned unchanged with no source query; on a miss the
initial round is fetched (lines 165-173) and the loop runs (lines 175-191).
On loop completion line 193 assembles the final dataframe with
`pd.DataFrame(data=taxa_recurse)` (see `taxaFinalFrame`): if that
constructor raises, the error propagates and nothing is persisted;
otherwise the resulting object frame is persisted (line 194 `to_pickle`)
and returned.  Returns (result, cache artifact after the call, queries
issued). -/
def get_taxaenumtree_table (cache : Option ObjFrame)
    (src : List Nat → Option TaxaTable) (initial : List Nat) (fuel : Nat) :
    Option ObjFrame × Option ObjFrame × Nat :=
  match cache with
  | some df => (some df, some df, 0)
  | none =>
    match src initial with
    | none => (none, none, 1)
    | some first =>
      match taxaRecurse src fuel [first] 1 with
      | (none, q) => (none, none, q)
      | (some rounds, q) =>
        match taxaFinalFrame rounds.reverse with
        | none => (none, none, q)
        | some df => (some df, some df, q)

/-- A source database that always answers: the round query over a fixed
`taxaenumtree` table. -/
def srcOf (table : TaxaTable) : List Nat → Option TaxaTable :=
  fun tids => some (fetchTaxa table tids)

/-- The rounds accumulated by the resolver's expansion loop on a cache miss
against a live table: the loop of lines 175-191 started from the round-0
fetch of lines 165-173 (the accumulator holds the most recent round first),
run with the given fuel. -/
def resolveRounds (table : TaxaTable) (initial : List Nat) (fuel : Nat) :
    Option (List TaxaTable) :=
  (taxaRecurse (srcOf table) fuel [fetchTaxa table initial] 1).1

/-- The frontier of each round when the resolver runs against `table` from
`initial`: round 0 queries `initial` (lines 165-173), and round k+1 queries
the frontier derived from round k's rows (lines 176-178). -/
def frontierSeq (table : TaxaTable) (initial : List Nat) : Nat → List Nat
  | 0 => initial
  | k+1 => nextFrontier (fetchTaxa table (frontierSeq table initial k))

/-- The accumulator `taxa_recurse` after round k has been fetched (most
recent round first). -/
def accSeq (table : TaxaTable) (initial : List Nat) : Nat → List TaxaTable
  | 0 => [fetchTaxa table initial]
  | k+1 => fetchTaxa table (frontierSeq table initial (k+1)) :: accSeq table initial k

/-- The rows gathered across all rounds of a returned accumulator (the
accumulator stores the most recent round first, so the rounds in fetch
order are its reverse): the row union a `pd.concat(taxa_recurse)` at line
193 would produce — what the constructor actually called there produces is
`taxaFinalFrame`. -/
def allRows (rounds : List TaxaTable) : TaxaTable := rounds.reverse.flatten

/-- One parent step of the taxon table, direct self-loops excluded: some row
of the table has identifier `x` and non-null parent `y ≠ x`. -/
def ParentStep (table : TaxaTable) (x y : Nat) : Prop :=
  ∃ r, r ∈ table ∧ r.tid = x ∧ r.parenttid = some y ∧ y ≠ x

/-- The table is acyclic apart from direct self-loops: the non-self parent
step relation has no cycle. -/
def Acyclic (table : TaxaTable) : Prop :=
  ∀ x, ¬ Relation.TransGen (ParentStep table) x x

/-- `y` is an initial identifier or a (transitive) ancestor of one. -/
def Reach (table : TaxaTable) (initial : List Nat) (y : Nat) : Prop :=
  y ∈ initial ∨ ∃ x, x ∈ initial ∧ Relation.TransGen (ParentStep table) x y

/-- A concrete two-row taxon chain used as a demonstration input:
row (tid 42, parent 7) and root row (tid 7, null parent). -/
def demoTable : TaxaTable := [⟨42, some 7⟩, ⟨7, none⟩]

/-- A concrete one-row table whose single row is a direct self-loop. -/
def selfLoopTable : TaxaTable := [⟨5, some 5⟩]

/-- A concrete source database that answers the query for tid 42 and fails
(raises) on every other query. -/
def demoFailSrc : List Nat → Option TaxaTable :=
  fun tids => if tids = [42] then some [⟨42, some 7⟩] else none

example : nextFrontier [⟨42, some 7⟩, ⟨7, none⟩] = [7] := by decide
example : nextFrontier [⟨5, some 5⟩] = [] := by decide
example : resolveRounds demoTable [42] 3 =
    some [[⟨7, none⟩], [⟨42, some 7⟩]] := by decide
example : resolveRounds demoTable [42, 7] 3 =
    some [[⟨7, none⟩], [⟨42, some 7⟩, ⟨7, none⟩]] := by decide
example : taxaFinalFrame [[⟨42, some 7⟩], [⟨7, none⟩]] = none := by decide
example : taxaFinalFrame [[⟨42, some 7⟩, ⟨7, none⟩], [⟨7, none⟩]] =
    some ⟨[[⟨42, some 7⟩, ⟨7, none⟩], [⟨7, none⟩]]⟩ := by decide
example : get_taxaenumtree_table none (srcOf demoTable) [42] 3 =
    (none, none, 2) := by decide
example : get_taxaenumtree_table none (srcOf demoTable) [42, 7] 3 =
    (some ⟨[[⟨42, some 7⟩, ⟨7, none⟩], [⟨7, none⟩]]⟩,
     some ⟨[[⟨42, some 7⟩, ⟨7, none⟩], [⟨7, none⟩]]⟩, 2) := by decide

/-- A row-index label of a pandas dataframe.  `pd.read_sql` produces frames
with a default integer `RangeIndex`; an arbitrary pickled frame could carry
string labels, so both kinds are represented. -/
inductive Label where
  | int : Nat → Label
  | str : String → Label
deriving DecidableEq, Repr

/-- An opaque dataframe for the flat table fetchers: row-index labels,
column labels, and cell content. -/
structure Df where
  index : List Label
  columns : List String
  cells : List (List String)
deriving DecidableEq, Repr

/-- One row-index label under pandas `df.rename(mapper)`: a string label
that is a key of the mapper is replaced; an integer label is never equal to
a string key and is untouched. -/
def renameLabel (mapper : List (String × String)) : Label → Label
  | .int n => .int n
  | .str s =>
    match mapper.lookup s with
    | some t => .str t
    | none => .str s

/-- pandas `df.rename(mapper)` with no axis argument (main.py line 158): the
mapper is applied to the row-index labels (the default axis is the index);
the column labels and the cells are untouched. -/
def Df.rename (df : Df) (mapper : List (String × String)) : Df :=
  { df with index := df.index.map (renameLabel mapper) }

/-- The rename mapping literal of main.py line 158. -/
def institutions_mapper : List (String × String) :=
  [("intialTimeStamp", "initialTimestamp")]

/-- Main.py lines 84-97, `get_taxonunits_table`: on a cache hit (the pickle
file exists) the artifact is returned with no source query; on a miss the
source is queried (`none` = the query raised) and the result is pickled and
returned.  Returns (result, cache artifact after the call, queries issued). -/
def get_taxonunits_table (cache : Option Df) (src : Option Df) :
    Option Df × Option Df × Nat :=
  match cache with
  | some df => (some df, some df, 0)
  | none =>
    match src with
    | none => (none, none, 1)
    | some df => (some df, some df, 1)

/-- Main.py lines 203-219, `get_taxa_table`: same cache-or-fetch shape as
`get_taxonunits_table` (the `where tid in (...)` restriction is part of the
opaque source answer here). -/
def get_taxa_table (cache : Option Df) (src : Option Df) :
    Option Df × Option Df × Nat :=
  match cache with
  | some df => (some df, some df, 0)
  | none =>
    match src with
    | none => (none, none, 1)
    | some df => (some df, some df, 1)

/-- Main.py lines 142-159, `get_institutions_table`: the cache-or-fetch
shape of the other fetchers, except that on a miss the artifact pickled at
line 152 is the dataframe as fetched, and the value returned (on either
path) is that dataframe after the line-158 rename. -/
def get_institutions_table (cache : Option Df) (src : Option Df) :
    Option Df × Option Df × Nat :=
  match cache with
  | some df => (some (df.rename institutions_mapper), some df, 0)
  | none =>
    match src with
    | none => (none, none, 1)
    | some df => (some (df.rename institutions_mapper), some df, 1)

/-- An occurrence row as selected by `sql_fmt_occid` (main.py lines 36-39):
`occid`, the foreign keys `collid` and `tidinterpreted`, and the columns the
`where` clause reads.  Nullable columns are `Option`; coordinates are exact
rationals (SQL decimals). -/
structure OccRow where
  occid : Nat
  collid : Option Nat
  tidinterpreted : Option Nat
  decimalLatitude : Option ℚ
  decimalLongitude : Option ℚ
  country : Option String
  stateProvince : Option String
deriving DecidableEq, Repr

/-- SQL `lower(...)`: character-wise lowercasing of a string. -/
def strLower (s : String) : String := ⟨s.data.map Char.toLower⟩

/-- The `where` clause of `sql_fmt_occid` (main.py lines 36-39) on one row:
coordinates between the latitude bounds and between the longitude bounds
(SQL `between` is inclusive), or `lower(country)` a member of the country
list, or `lower(stateProvince)` a member of the province list.  A null
column makes its disjunct unknown in SQL, hence not satisfied. -/
def occSelect (occ_countries occ_provinces : List String)
    (lat0 lat1 lon0 lon1 : ℚ) (r : OccRow) : Bool :=
  (match r.decimalLatitude, r.decimalLongitude with
   | some la, some lo =>
     decide (lat0 ≤ la) && decide (la ≤ lat1) &&
       decide (lon0 ≤ lo) && decide (lo ≤ lon1)
   | _, _ => false)
  ||
  (match r.country with
   | some c => decide (strLower c ∈ occ_countries)
   | none => false)
  ||
  (match r.stateProvince with
   | some s => decide (strLower s ∈ occ_provinces)
   | none => false)

/-- The row set denoted by the query `sql_fmt_occid` formatted with the
given bounds and region lists (main.py lines 103-112): the source rows
satisfying the `where` clause. -/
def omoccurrencesQuery (occ_countries occ_provinces : List String)
    (lat0 lat1 lon0 lon1 : ℚ) (table : List OccRow) : List OccRow :=
  table.filter (occSelect occ_countries occ_provinces lat0 lat1 lon0 lon1)

/-- Main.py line 24: the configured longitude range. -/
def omoccurrences_longitude_range : ℚ × ℚ := (-178.2, -49.0)

/-- Main.py line 25: the configured latitude range. -/
def omoccurrences_latitude_range : ℚ × ℚ := (6.6, 83.3)

/-- Main.py lines 100-120, `get_omoccurrences_min`: on a cache hit the
artifact is returned with no source query; on a miss the filtered query is
issued against the source occurrence table (`none` = the source raised) and
the result is pickled and returned. -/
def get_omoccurrences_min (cache : Option (List OccRow))
    (sourceTable : Option (List OccRow))
    (occ_countries occ_provinces : List String)
    (occ_lat_range occ_lon_range : ℚ × ℚ) :
    Option (List OccRow) × Option (List OccRow) × Nat :=
  match cache with
  | some df => (some df, some df, 0)
  | none =>
    match sourceTable with
    | none => (none, none, 1)
    | some tbl =>
      let df := omoccurrencesQuery occ_countries occ_provinces
        occ_lat_range.1 occ_lat_range.2 occ_lon_range.1 occ_lon_range.2 tbl
      (some df, some df, 1)

/-- A collection row as used by main: its identifier and its nullable
institution foreign key. -/
structure CollRow where
  collid : Nat
  iid : Option Nat
deriving DecidableEq, Repr

/-- Main.py lines 123-139, `get_omcollections_table`: the cache-or-fetch
shape over collection rows (the `where collid in (...)` restriction is part
of the opaque source answer here). -/
def get_omcollections_table (cache : Option (List CollRow))
    (src : Option (List CollRow)) :
    Option (List CollRow) × Option (List CollRow) × Nat :=
  match cache with
  | some df => (some df, some df, 0)
  | none =>
    match src with
    | none => (none, none, 1)
    | some df => (some df, some df, 1)

/-- Main.py line 264: the collection-identifier filter set passed to
`get_omcollections_table` is `np.unique(omoccurrences_min["collid"])` with
no null mask, so a null `collid` stays in the set (`np.unique` keeps `NaN`,
and `astype(str)` then renders it as the string "nan"); the surviving null
is modelled by the value `none` remaining in the list. -/
def main_collids (occ : List OccRow) : List (Option Nat) :=
  (occ.map OccRow.collid).dedup

/-- Main.py line 274: the institution-identifier filter set is
`np.unique(iid[~pd.isna(iid)])` — null institution keys are dropped before
the distinct values are taken. -/
def main_iids (cols : List CollRow) : List Nat :=
  (cols.filterMap CollRow.iid).dedup

/-- Main.py lines 278-280: the initial taxon set handed to the resolver is
`np.unique(tidinterpreted[~pd.isna(tidinterpreted)])` — null interpreted
taxa are dropped before the distinct values are taken. -/
def main_occurrence_tids (occ : List OccRow) : List Nat :=
  (occ.filterMap OccRow.tidinterpreted).dedup

/-- Main.py lines 167-170 (and 184-187): the SQL text of a taxaenumtree
round query — the field names joined with ", " and the identifier strings
joined with ", ", interpolated into the template. -/
def taxaenumtreeQuery (fields : List String) (tids : List String) : String :=
  "select " ++ String.intercalate ", " fields ++
    " from taxaenumtree where tid in (" ++ String.intercalate ", " tids ++ ")"

/-- The embedded database file, recording the schema script it was created
from: `sqlite_create_db` (main.py lines 42-46) executes the script on a
fresh file at the target path. -/
structure SqliteDb where
  script : String
deriving DecidableEq, Repr

/-- Main.py lines 42-46: create the output file by executing the schema
script. -/
def sqlite_create_db (sqlite_create : String) : SqliteDb :=
  ⟨sqlite_create⟩

/-- Main.py lines 303-304: the output file is created from the schema script
when and only when no file exists at the target path; an existing file, of
any content, is kept unchanged and the step is skipped without error. -/
def main_materialize (existing : Option SqliteDb) (sqlite_create : String) :
    SqliteDb :=
  match existing with
  | some db => db
  | none => sqlite_create_db sqlite_create

/-- A concrete dataframe used by witnesses: two integer-indexed rows with an
`iid` column and the misspelled `intialTimeStamp` column. -/
def demoDf : Df :=
  ⟨[.int 0, .int 1], ["iid", "intialTimeStamp"],
    [["1", "2001"], ["2", "2002"]]⟩

example : demoDf.rename institutions_mapper = demoDf := by decide
example : taxaenumtreeQuery ["tid", "parenttid"] [] =
    "select tid, parenttid from taxaenumtree where tid in ()" := by rfl

lemma mem_fetchTaxa {table : TaxaTable} {tids : List Nat} {r : TaxaRow} :
    r ∈ fetchTaxa table tids ↔ r ∈ table ∧ r.tid ∈ tids := by
  simp [fetchTaxa]

lemma fetchTaxa_nil (table : TaxaTable) : fetchTaxa table [] = [] := by
  simp [fetchTaxa]

lemma mem_nextFrontier {rows : TaxaTable} {y : Nat} :
    y ∈ nextFrontier rows ↔
      ∃ r, r ∈ rows ∧ r.parenttid = some y ∧ y ≠ r.tid := by
  simp only [nextFrontier, List.mem_dedup, List.mem_filterMap]
  constructor
  · rintro ⟨r, hr, h⟩
    refine ⟨r, hr, ?_⟩
    rcases hp : r.parenttid with _ | p
    · rw [hp] at h; cases h
    · rw [hp] at h
      dsimp only at h
      by_cases hpe : p = r.tid
      · rw [if_pos hpe] at h; cases h
      · rw [if_neg hpe] at h
        injection h with h
        subst h
        exact ⟨rfl, hpe⟩
  · rintro ⟨r, hr, hp, hne⟩
    refine ⟨r, hr, ?_⟩
    rw [hp]
    dsimp only
    rw [if_neg hne]

lemma taxaRecurse_zero (src : List Nat → Option TaxaTable)
    (acc : List TaxaTable) (q : Nat) :
    taxaRecurse src 0 acc q = (none, q) := rfl

lemma taxaRecurse_succ_empty (src : List Nat → Option TaxaTable)
    {acc : List TaxaTable} (fuel q : Nat)
    (he : nextFrontier acc.headI = []) :
    taxaRecurse src (fuel+1) acc q = (some acc, q) := by
  simp [taxaRecurse, he]

lemma taxaRecurse_succ_fail (src : List Nat → Option TaxaTable)
    {acc : List TaxaTable} (fuel q : Nat)
    (he : nextFrontier acc.headI ≠ [])
    (hf : src (nextFrontier acc.headI) = none) :
    taxaRecurse src (fuel+1) acc q = (none, q+1) := by
  simp [taxaRecurse, List.isEmpty_iff, he, hf]

lemma taxaRecurse_succ_step (src : List Nat → Option TaxaTable)
    {acc : List TaxaTable} {rows : TaxaTable} (fuel q : Nat)
    (he : nextFrontier acc.headI ≠ [])
    (hs : src (nextFrontier acc.headI) = some rows) :
    taxaRecurse src (fuel+1) acc q = taxaRecurse src fuel (rows :: acc) (q+1) := by
  simp [taxaRecurse, List.isEmpty_iff, he, hs]

lemma accSeq_headI (t : TaxaTable) (i : List Nat) (k : Nat) :
    (accSeq t i k).headI = fetchTaxa t (frontierSeq t i k) := by
  cases k <;> rfl

lemma accSeq_ne_nil (t : TaxaTable) (i : List Nat) (k : Nat) :
    accSeq t i k ≠ [] := by
  cases k <;> simp [accSeq]

lemma nextFrontier_accSeq_headI (t : TaxaTable) (i : List Nat) (k : Nat) :
    nextFrontier (accSeq t i k).headI = frontierSeq t i (k+1) := by
  rw [accSeq_headI]; rfl

lemma frontierSeq_empty_succ {t : TaxaTable} {i : List Nat} {k : Nat}
    (h : frontierSeq t i k = []) : frontierSeq t i (k+1) = [] := by
  show nextFrontier (fetchTaxa t (frontierSeq t i k)) = []
  rw [h, fetchTaxa_nil]
  rfl

lemma frontierSeq_empty_mono {t : TaxaTable} {i : List Nat} {k : Nat}
    (h : frontierSeq t i k = []) :
    ∀ m, k ≤ m → frontierSeq t i m = [] := by
  intro m hm
  obtain ⟨d, rfl⟩ := Nat.exists_eq_add_of_le hm
  clear hm
  induction d with
  | zero => exact h
  | succ d ih => exact frontierSeq_empty_succ ih

lemma chain_transGen {α : Type} {R : α → α → Prop} :
    ∀ {l : List α} {a b : α}, List.Chain R a l → b ∈ l →
      Relation.TransGen R a b := by
  intro l
  induction l with
  | nil => intro a b _ hb; cases hb
  | cons x xs ih =>
    intro a b hch hb
    rcases List.chain_cons.mp hch with ⟨hax, hxs⟩
    rcases List.mem_cons.mp hb with rfl | hb
    · exact Relation.TransGen.single hax
    · exact Relation.TransGen.head hax (ih hxs hb)

lemma chain_nodup {α : Type} {R : α → α → Prop}
    (hirr : ∀ x, ¬ Relation.TransGen R x x) :
    ∀ {l : List α} {a : α}, List.Chain R a l → (a :: l).Nodup := by
  intro l
  induction l with
  | nil => intro a _; simp
  | cons x xs ih =>
    intro a hch
    rcases List.chain_cons.mp hch with ⟨hax, hxs⟩
    refine List.nodup_cons.mpr ⟨?_, ih hxs⟩
    intro ha
    exact hirr a (chain_transGen hch ha)

lemma chain_mem_targets {α : Type} {R : α → α → Prop} :
    ∀ {l : List α} {a b : α}, List.Chain R a l → b ∈ l → ∃ p, R p b := by
  intro l
  induction l with
  | nil => intro a b _ hb; cases hb
  | cons x xs ih =>
    intro a b hch hb
    rcases List.chain_cons.mp hch with ⟨hax, hxs⟩
    rcases List.mem_cons.mp hb with rfl | hb
    · exact ⟨a, hax⟩
    · exact ih hxs hb

lemma ParentStep.mem_tids {t : TaxaTable} {x y : Nat}
    (h : ParentStep t x y) : x ∈ t.map TaxaRow.tid := by
  obtain ⟨r, hr, rfl, _, _⟩ := h
  exact List.mem_map_of_mem _ hr

lemma frontier_chain {t : TaxaTable} {i : List Nat} :
    ∀ {k : Nat} {y : Nat}, y ∈ frontierSeq t i k →
      ∃ c : List Nat, c.length = k ∧
        List.Chain (fun a b => ParentStep t b a) y c := by
  intro k
  induction k with
  | zero => intro y _; exact ⟨[], rfl, List.Chain.nil⟩
  | succ k ih =>
    intro y hy
    obtain ⟨r, hrf, hp, hne⟩ := mem_nextFrontier.mp hy
    obtain ⟨hrt, hrtid⟩ := mem_fetchTaxa.mp hrf
    obtain ⟨c, hlen, hch⟩ := ih hrtid
    exact ⟨r.tid :: c, by simp [hlen],
      List.chain_cons.mpr ⟨⟨r, hrt, rfl, hp, hne⟩, hch⟩⟩

lemma frontierSeq_bound (t : TaxaTable) (i : List Nat) (hacyc : Acyclic t) :
    frontierSeq t i ((t.map TaxaRow.tid).dedup.length + 1) = [] := by
  rw [List.eq_nil_iff_forall_not_mem]
  intro y hy
  obtain ⟨c, hlen, hch⟩ := frontier_chain hy
  have hirr : ∀ x, ¬ Relation.TransGen (fun a b => ParentStep t b a) x x := by
    intro x hx
    exact hacyc x (Relation.transGen_swap.mp hx)
  have hnd : c.Nodup := (chain_nodup hirr hch).of_cons
  have hsub : c ⊆ (t.map TaxaRow.tid).dedup := by
    intro b hb
    obtain ⟨p, hp⟩ := chain_mem_targets hch hb
    exact List.mem_dedup.mpr hp.mem_tids
  have := (List.subperm_of_subset hnd hsub).length_le
  omega

lemma taxaRecurse_exit {src : List Nat → Option TaxaTable} :
    ∀ {fuel : Nat} {acc : List TaxaTable} {q : Nat} {rs : List TaxaTable}
      {q' : Nat}, taxaRecurse src fuel acc q = (some rs, q') →
      nextFrontier rs.headI = [] ∧ ∃ pre, rs = pre ++ acc := by
  intro fuel
  induction fuel with
  | zero =>
    intro acc q rs q' h
    rw [taxaRecurse_zero] at h
    simp at h
  | succ fuel ih =>
    intro acc q rs q' h
    by_cases he : nextFrontier acc.headI = []
    · rw [taxaRecurse_succ_empty _ _ _ he] at h
      simp only [Prod.mk.injEq] at h
      obtain ⟨h1, -⟩ := h
      injection h1 with h1
      subst h1
      exact ⟨he, [], rfl⟩
    · cases hs : src (nextFrontier acc.headI) with
      | none =>
        rw [taxaRecurse_succ_fail _ _ _ he hs] at h
        simp at h
      | some rows =>
        rw [taxaRecurse_succ_step _ _ _ he hs] at h
        obtain ⟨hf, pre, rfl⟩ := ih h
        exact ⟨hf, pre ++ [rows], by simp⟩

lemma taxaRecurse_some_accSeq {t : TaxaTable} {i : List Nat} :
    ∀ {m k q : Nat} {rs : List TaxaTable} {q' : Nat},
      taxaRecurse (srcOf t) m (accSeq t i k) q = (some rs, q') →
      ∃ N, k ≤ N ∧ rs = accSeq t i N ∧ frontierSeq t i (N+1) = [] := by
  intro m
  induction m with
  | zero =>
    intro k q rs q' h
    rw [taxaRecurse_zero] at h
    simp at h
  | succ m ih =>
    intro k q rs q' h
    by_cases he : frontierSeq t i (k+1) = []
    · have hh : nextFrontier (accSeq t i k).headI = [] := by
        rw [nextFrontier_accSeq_headI]; exact he
      rw [taxaRecurse_succ_empty _ _ _ hh] at h
      simp only [Prod.mk.injEq] at h
      obtain ⟨h1, -⟩ := h
      injection h1 with h1
      subst h1
      exact ⟨k, le_refl k, rfl, he⟩
    · have hne : nextFrontier (accSeq t i k).headI ≠ [] := by
        rw [nextFrontier_accSeq_headI]; exact he
      have hsrc : srcOf t (nextFrontier (accSeq t i k).headI) =
          some (fetchTaxa t (frontierSeq t i (k+1))) := by
        rw [nextFrontier_accSeq_headI]; rfl
      rw [taxaRecurse_succ_step _ _ _ hne hsrc] at h
      have hacc : fetchTaxa t (frontierSeq t i (k+1)) :: accSeq t i k =
          accSeq t i (k+1) := rfl
      rw [hacc] at h
      obtain ⟨N, hkN, hrs, hfr⟩ := ih h
      exact ⟨N, le_trans (Nat.le_succ k) hkN, hrs, hfr⟩

lemma taxaRecurse_terminates {t : TaxaTable} {i : List Nat} :
    ∀ {m k q : Nat}, frontierSeq t i (k+m+1) = [] →
      ∃ rs q', taxaRecurse (srcOf t) (m+1) (accSeq t i k) q = (some rs, q') := by
  intro m
  induction m with
  | zero =>
    intro k q h
    have hh : nextFrontier (accSeq t i k).headI = [] := by
      rw [nextFrontier_accSeq_headI]; exact h
    exact ⟨accSeq t i k, q, taxaRecurse_succ_empty _ _ _ hh⟩
  | succ m ih =>
    intro k q h
    by_cases he : frontierSeq t i (k+1) = []
    · have hh : nextFrontier (accSeq t i k).headI = [] := by
        rw [nextFrontier_accSeq_headI]; exact he
      exact ⟨accSeq t i k, q, taxaRecurse_succ_empty _ _ _ hh⟩
    · have hne : nextFrontier (accSeq t i k).headI ≠ [] := by
        rw [nextFrontier_accSeq_headI]; exact he
      have hsrc : srcOf t (nextFrontier (accSeq t i k).headI) =
          some (fetchTaxa t (frontierSeq t i (k+1))) := by
        rw [nextFrontier_accSeq_headI]; rfl
      have hacc : fetchTaxa t (frontierSeq t i (k+1)) :: accSeq t i k =
          accSeq t i (k+1) := rfl
      have hfr : frontierSeq t i ((k+1)+m+1) = [] := by
        have : (k+1)+m+1 = k+(m+1)+1 := by omega
        rw [this]; exact h
      obtain ⟨rs, q', hrun⟩ := ih (k := k+1) (q := q+1) hfr
      refine ⟨rs, q', ?_⟩
      rw [taxaRecurse_succ_step _ _ _ hne hsrc, hacc]
      exact hrun

lemma accSeq_zero (t : TaxaTable) (i : List Nat) :
    accSeq t i 0 = [fetchTaxa t i] := rfl

lemma resolveRounds_some {t : TaxaTable} {i : List Nat} {fuel : Nat}
    {rounds : List TaxaTable} (h : resolveRounds t i fuel = some rounds) :
    ∃ q', taxaRecurse (srcOf t) fuel [fetchTaxa t i] 1 = (some rounds, q') := by
  unfold resolveRounds at h
  rcases hrun : taxaRecurse (srcOf t) fuel [fetchTaxa t i] 1 with ⟨r, q'⟩
  rw [hrun] at h
  dsimp only at h
  subst h
  exact ⟨q', rfl⟩

lemma get_taxaenumtree_miss_run {src : List Nat → Option TaxaTable}
    {i : List Nat} {fuel : Nat} {first : TaxaTable}
    {rounds : List TaxaTable} {q : Nat} (hsi : src i = some first)
    (hrun : taxaRecurse src fuel [first] 1 = (some rounds, q)) :
    get_taxaenumtree_table none src i fuel =
      match taxaFinalFrame rounds.reverse with
      | none => (none, none, q)
      | some df => (some df, some df, q) := by
  unfold get_taxaenumtree_table
  simp only [hsi, hrun]

lemma get_taxaenumtree_cache_eq_result (src : List Nat → Option TaxaTable)
    (i : List Nat) (fuel : Nat) :
    (get_taxaenumtree_table none src i fuel).2.1 =
      (get_taxaenumtree_table none src i fuel).1 := by
  unfold get_taxaenumtree_table
  cases hs : src i with
  | none => rfl
  | some first =>
    rcases hrun : taxaRecurse src fuel [first] 1 with ⟨r, q'⟩
    cases r with
    | none => simp [hrun]
    | some rounds =>
      cases hff : taxaFinalFrame rounds.reverse <;> simp [hrun, hff]

lemma frontier_reach {t : TaxaTable} {i : List Nat} :
    ∀ {k y : Nat}, y ∈ frontierSeq t i k → Reach t i y := by
  intro k
  induction k with
  | zero => intro y hy; exact Or.inl hy
  | succ k ih =>
    intro y hy
    obtain ⟨r, hrf, hp, hne⟩ := mem_nextFrontier.mp hy
    obtain ⟨hrt, hrtid⟩ := mem_fetchTaxa.mp hrf
    have hstep : ParentStep t r.tid y := ⟨r, hrt, rfl, hp, hne⟩
    rcases ih hrtid with hx | ⟨x, hxi, htg⟩
    · exact Or.inr ⟨r.tid, hx, Relation.TransGen.single hstep⟩
    · exact Or.inr ⟨x, hxi, htg.tail hstep⟩

lemma frontier_step_succ {t : TaxaTable} {i : List Nat} {k x y : Nat}
    (hx : x ∈ frontierSeq t i k) (hstep : ParentStep t x y) :
    y ∈ frontierSeq t i (k+1) := by
  obtain ⟨r, hrt, rfl, hp, hne⟩ := hstep
  exact mem_nextFrontier.mpr ⟨r, mem_fetchTaxa.mpr ⟨hrt, hx⟩, hp, hne⟩

lemma reach_frontier {t : TaxaTable} {i : List Nat} {y : Nat}
    (h : Reach t i y) : ∃ k, y ∈ frontierSeq t i k := by
  rcases h with hy | ⟨x, hxi, htg⟩
  · exact ⟨0, hy⟩
  · induction htg with
    | single hstep => exact ⟨1, frontier_step_succ hxi hstep⟩
    | tail _ hstep ih =>
      obtain ⟨k, hk⟩ := ih
      exact ⟨k+1, frontier_step_succ hk hstep⟩

lemma mem_accSeq {t : TaxaTable} {i : List Nat} {N : Nat} {s : TaxaTable} :
    s ∈ accSeq t i N ↔
      ∃ k, k ≤ N ∧ s = fetchTaxa t (frontierSeq t i k) := by
  induction N with
  | zero =>
    rw [accSeq_zero]
    constructor
    · intro hs
      rcases List.mem_cons.mp hs with rfl | hs
      · exact ⟨0, le_refl 0, rfl⟩
      · cases hs
    · rintro ⟨k, hk, rfl⟩
      have : k = 0 := Nat.le_zero.mp hk
      subst this
      exact List.mem_singleton.mpr rfl
  | succ N ih =>
    show s ∈ fetchTaxa t (frontierSeq t i (N+1)) :: accSeq t i N ↔ _
    rw [List.mem_cons, ih]
    constructor
    · rintro (rfl | ⟨k, hk, rfl⟩)
      · exact ⟨N+1, le_refl _, rfl⟩
      · exact ⟨k, Nat.le_succ_of_le hk, rfl⟩
    · rintro ⟨k, hk, rfl⟩
      rcases Nat.lt_or_ge k (N+1) with hlt | hge
      · exact Or.inr ⟨k, Nat.lt_succ_iff.mp hlt, rfl⟩
      · have : k = N+1 := le_antisymm hk hge
        subst this
        exact Or.inl rfl

lemma demoTable_step {x y : Nat} (h : ParentStep demoTable x y) :
    x = 42 ∧ y = 7 := by
  obtain ⟨r, hr, rfl, hp, hne⟩ := h
  rcases List.mem_cons.mp hr with rfl | hr
  · injection hp with hp
    exact ⟨rfl, hp.symm⟩
  · rcases List.mem_singleton.mp hr with rfl
    cases hp

lemma demoTable_transGen {x y : Nat}
    (h : Relation.TransGen (ParentStep demoTable) x y) : x = 42 ∧ y = 7 := by
  induction h with
  | single hs => exact demoTable_step hs
  | tail htg hs ih =>
    obtain ⟨hx, rfl⟩ := ih
    obtain ⟨hb, -⟩ := demoTable_step hs
    exact absurd hb (by decide)

lemma demoTable_acyclic : Acyclic demoTable := by
  intro x hx
  obtain ⟨rfl, h7⟩ := demoTable_transGen hx
  exact absurd h7 (by decide)

lemma mem_allRows {t : TaxaTable} {i : List Nat} {N : Nat} {r : TaxaRow} :
    r ∈ allRows (accSeq t i N) ↔
      ∃ k, k ≤ N ∧ r ∈ fetchTaxa t (frontierSeq t i k) := by
  unfold allRows
  rw [List.mem_flatten]
  constructor
  · rintro ⟨s, hs, hr⟩
    obtain ⟨k, hk, rfl⟩ := mem_accSeq.mp (List.mem_reverse.mp hs)
    exact ⟨k, hk, hr⟩
  · rintro ⟨k, hk, hr⟩
    exact ⟨fetchTaxa t (frontierSeq t i k),
      List.mem_reverse.mpr (mem_accSeq.mpr ⟨k, hk, rfl⟩), hr⟩

/-- C1: for every finite taxon-parent table that is acyclic apart from
direct self-loops, and every initial taxon identifier set, the Closure
Resolver's expansion loop terminates (the fuelled embedding succeeds for
some fuel), and whenever the loop completes it has exited through its single
break: the frontier derived from the most recent round is empty — the sole
termination condition. -/
theorem closure_resolver_terminates (table : TaxaTable) (initial : List Nat)
    (hacyc : Acyclic table) :
    (∃ fuel rounds, resolveRounds table initial fuel = some rounds) ∧
    (∀ fuel rounds, resolveRounds table initial fuel = some rounds →
      rounds ≠ [] ∧ nextFrontier rounds.headI = []) := by
  constructor
  · have hb := frontierSeq_bound table initial hacyc
    set n := (table.map TaxaRow.tid).dedup.length with hn
    have hempty : frontierSeq table initial (0+(n+1)+1) = [] :=
      frontierSeq_empty_mono hb (0+(n+1)+1) (by omega)
    obtain ⟨rs, q', hrun⟩ :=
      taxaRecurse_terminates (m := n+1) (k := 0) (q := 1) hempty
    refine ⟨n+2, rs, ?_⟩
    rw [accSeq_zero] at hrun
    simp [resolveRounds, hrun]
  · intro fuel rounds h
    obtain ⟨q', hrun⟩ := resolveRounds_some h
    obtain ⟨hf, pre, rfl⟩ := taxaRecurse_exit hrun
    exact ⟨by simp, hf⟩

/-- Witness for C1: the two-row chain table (42 → 7 → root) with initial
set containing 42 is acyclic, and the theorem applies to it. -/
theorem closure_resolver_terminates_witness :
    (∃ fuel rounds, resolveRounds demoTable [42] fuel = some rounds) ∧
    (∀ fuel rounds, resolveRounds demoTable [42] fuel = some rounds →
      rounds ≠ [] ∧ nextFrontier rounds.headI = []) :=
  closure_resolver_terminates demoTable [42] demoTable_acyclic

/-- C2: in every round, the next frontier consists exactly of the
`parenttid` values of the most-recently-fetched round's rows — round k+1's
query set is derived from round k's fetch alone — with nulls excluded and
with any value equal to its own row's `tid` excluded; concretely, a table
whose only row is the self-loop (5, parent 5) yields an empty first frontier,
so the resolver fetches that row once and never re-fetches it. -/
theorem frontier_round_scoped :
    (∀ (table : TaxaTable) (initial : List Nat) (k y : Nat),
      y ∈ frontierSeq table initial (k+1) ↔
        ∃ r, r ∈ fetchTaxa table (frontierSeq table initial k) ∧
          r.parenttid = some y ∧ y ≠ r.tid) ∧
    frontierSeq selfLoopTable [5] 1 = [] ∧
    resolveRounds selfLoopTable [5] 2 = some [[⟨5, some 5⟩]] := by
  refine ⟨?_, by decide, by decide⟩
  intro table initial k y
  exact mem_nextFrontier

/-- C3 counterexample: the claim fails at concrete inputs in two ways.  On
the two-row chain table with initial set {42, 7} the loop completes with
the root row (7, null) fetched in both rounds — once because 7 is initial,
once because 7 is 42's parent — so the gathered rows are not deduplicated;
and on the same table with initial set {42} (the spec's own two-round
scenario) the rounds have equal row counts, so the line-193 constructor
raises and the operation persists and returns nothing at all, not the
union of the rounds' rows. -/
theorem closure_result_not_dedup :
    (resolveRounds demoTable [42, 7] 3 =
        some [[⟨7, none⟩], [⟨42, some 7⟩, ⟨7, none⟩]] ∧
      ¬ (allRows [[⟨7, none⟩], [⟨42, some 7⟩, ⟨7, none⟩]]).Nodup) ∧
    (resolveRounds demoTable [42] 3 = some [[⟨7, none⟩], [⟨42, some 7⟩]] ∧
      get_taxaenumtree_table none (srcOf demoTable) [42] 3 =
        (none, none, 2)) := by
  exact ⟨⟨by decide, by decide⟩, by decide, by decide⟩

/-- C3 (amended): on loop completion the accumulated rounds gather every
round's fetched rows, equal as a set to the rows of all ancestors of the
initial identifiers together with the initial rows themselves, but without
deduplication (a row fetched in several rounds appears once per round); and
the final table assembled at line 193 is not this row union: what the
operation persists and returns is `taxaFinalFrame` of the rounds in fetch
order — when the rounds all have equal row counts (in particular for any
single-round resolution) the constructor raises and the run aborts with
nothing persisted, and otherwise the persisted and returned artifact is the
one-column object frame nesting the round frames themselves, not their
rows. -/
theorem closure_result_rows (table : TaxaTable) (initial : List Nat)
    (fuel : Nat) (rounds : List TaxaTable)
    (h : resolveRounds table initial fuel = some rounds) :
    (∀ r, r ∈ allRows rounds ↔ r ∈ table ∧ Reach table initial r.tid) ∧
    (get_taxaenumtree_table none (srcOf table) initial fuel).1 =
      taxaFinalFrame rounds.reverse ∧
    (get_taxaenumtree_table none (srcOf table) initial fuel).2.1 =
      taxaFinalFrame rounds.reverse ∧
    (∀ df, taxaFinalFrame rounds.reverse = some df →
      df.nested = rounds.reverse) := by
  obtain ⟨q', hrun⟩ := resolveRounds_some h
  have hsi : srcOf table initial = some (fetchTaxa table initial) := rfl
  have hget := get_taxaenumtree_miss_run hsi hrun
  rw [show [fetchTaxa table initial] = accSeq table initial 0 from rfl] at hrun
  obtain ⟨N, -, rfl, hNfr⟩ := taxaRecurse_some_accSeq hrun
  refine ⟨?_, ?_, ?_, ?_⟩
  · intro r
    rw [mem_allRows]
    constructor
    · rintro ⟨k, hk, hr⟩
      obtain ⟨hrt, hrtid⟩ := mem_fetchTaxa.mp hr
      exact ⟨hrt, frontier_reach hrtid⟩
    · rintro ⟨hrt, hreach⟩
      obtain ⟨k, hk⟩ := reach_frontier hreach
      have hkN : k ≤ N := by
        by_contra hgt
        have he : frontierSeq table initial k = [] :=
          frontierSeq_empty_mono hNfr k (by omega)
        rw [he] at hk
        cases hk
      exact ⟨k, hkN, mem_fetchTaxa.mpr ⟨hrt, hk⟩⟩
  · rw [hget]
    cases taxaFinalFrame (accSeq table initial N).reverse <;> rfl
  · rw [hget]
    cases taxaFinalFrame (accSeq table initial N).reverse <;> rfl
  · intro df hdf
    unfold taxaFinalFrame at hdf
    split at hdf
    · cases hdf
    · injection hdf with hdf
      rw [← hdf]

/-- Witness for C3 (amended) at the two-row chain table with initial set
{42}: the loop completes with rounds [[root row], [row 42]]; the root row
is among the gathered rows exactly because it is a row of the table
reachable from 42, and what the operation returns and persists is the
line-193 value of these rounds (here: nothing, since both rounds hold one
row). -/
theorem closure_result_rows_witness :
    ((⟨7, none⟩ : TaxaRow) ∈ allRows [[⟨7, none⟩], [⟨42, some 7⟩]] ↔
      (⟨7, none⟩ : TaxaRow) ∈ demoTable ∧
        Reach demoTable [42] (⟨7, none⟩ : TaxaRow).tid) ∧
    (get_taxaenumtree_table none (srcOf demoTable) [42] 3).1 =
      taxaFinalFrame ([[⟨7, none⟩], [⟨42, some 7⟩]] : List TaxaTable).reverse ∧
    (get_taxaenumtree_table none (srcOf demoTable) [42] 3).2.1 =
      taxaFinalFrame ([[⟨7, none⟩], [⟨42, some 7⟩]] : List TaxaTable).reverse :=
  ⟨(closure_result_rows demoTable [42] 3 _ (by decide)).1 ⟨7, none⟩,
   (closure_result_rows demoTable [42] 3 _ (by decide)).2.1,
   (closure_result_rows demoTable [42] 3 _ (by decide)).2.2.1⟩

/-- C4: on a cache hit every fetching operation returns the deserialized
artifact with zero source queries regardless of the artifact's content (for
institutions the returned value is the artifact after the line-158 rename,
which leaves an integer-indexed artifact — the only kind `pd.read_sql` and
hence this program produces — unchanged); and after a successful first run
on a cache miss, a second run over the cache it wrote returns output equal
to the first run's result with zero queries. -/
theorem cache_hit_no_refetch :
    (∀ (df : Df) (src : Option Df),
      get_taxonunits_table (some df) src = (some df, some df, 0)) ∧
    (∀ (df : List OccRow) (st : Option (List OccRow)) (cs ps : List String)
      (latR lonR : ℚ × ℚ),
      get_omoccurrences_min (some df) st cs ps latR lonR =
        (some df, some df, 0)) ∧
    (∀ (df : List CollRow) (src : Option (List CollRow)),
      get_omcollections_table (some df) src = (some df, some df, 0)) ∧
    (∀ (df : Df) (src : Option Df),
      get_taxa_table (some df) src = (some df, some df, 0)) ∧
    (∀ (df : ObjFrame) (src : List Nat → Option TaxaTable)
      (i : List Nat) (fuel : Nat),
      get_taxaenumtree_table (some df) src i fuel = (some df, some df, 0)) ∧
    (∀ (df : Df) (src : Option Df),
      get_institutions_table (some df) src =
        (some (df.rename institutions_mapper), some df, 0)) ∧
    (∀ df : Df, (∀ l ∈ df.index, ∃ n, l = Label.int n) →
      df.rename institutions_mapper = df) ∧
    (∀ src src' : Option Df, (get_taxonunits_table none src).1.isSome →
      (get_taxonunits_table (get_taxonunits_table none src).2.1 src').1 =
          (get_taxonunits_table none src).1 ∧
        (get_taxonunits_table (get_taxonunits_table none src).2.1 src').2.2
          = 0) ∧
    (∀ (st st' : Option (List OccRow)) (cs ps : List String)
      (latR lonR : ℚ × ℚ),
      (get_omoccurrences_min none st cs ps latR lonR).1.isSome →
      (get_omoccurrences_min
            (get_omoccurrences_min none st cs ps latR lonR).2.1
            st' cs ps latR lonR).1 =
          (get_omoccurrences_min none st cs ps latR lonR).1 ∧
        (get_omoccurrences_min
            (get_omoccurrences_min none st cs ps latR lonR).2.1
            st' cs ps latR lonR).2.2 = 0) ∧
    (∀ src src' : Option (List CollRow),
      (get_omcollections_table none src).1.isSome →
      (get_omcollections_table (get_omcollections_table none src).2.1
            src').1 = (get_omcollections_table none src).1 ∧
        (get_omcollections_table (get_omcollections_table none src).2.1
            src').2.2 = 0) ∧
    (∀ src src' : Option Df, (get_taxa_table none src).1.isSome →
      (get_taxa_table (get_taxa_table none src).2.1 src').1 =
          (get_taxa_table none src).1 ∧
        (get_taxa_table (get_taxa_table none src).2.1 src').2.2 = 0) ∧
    (∀ (src src' : List Nat → Option TaxaTable) (i i' : List Nat)
      (fuel fuel' : Nat),
      (get_taxaenumtree_table none src i fuel).1.isSome →
      (get_taxaenumtree_table (get_taxaenumtree_table none src i fuel).2.1
            src' i' fuel').1 = (get_taxaenumtree_table none src i fuel).1 ∧
        (get_taxaenumtree_table (get_taxaenumtree_table none src i fuel).2.1
            src' i' fuel').2.2 = 0) ∧
    (∀ src src' : Option Df, (get_institutions_table none src).1.isSome →
      (get_institutions_table (get_institutions_table none src).2.1
            src').1 = (get_institutions_table none src).1 ∧
        (get_institutions_table (get_institutions_table none src).2.1
            src').2.2 = 0) := by
  refine ⟨fun df src => rfl, fun df st cs ps latR lonR => rfl,
    fun df src => rfl, fun df src => rfl, fun df src i fuel => rfl,
    fun df src => rfl, ?_, ?_, ?_, ?_, ?_, ?_, ?_⟩
  · intro df hint
    have hmap : df.index.map (renameLabel institutions_mapper) = df.index := by
      conv_rhs => rw [← List.map_id df.index]
      refine List.map_congr_left fun l hl => ?_
      obtain ⟨n, rfl⟩ := hint l hl
      rfl
    unfold Df.rename
    rw [hmap]
  · intro src src' hs
    cases src with
    | none => simp [get_taxonunits_table] at hs
    | some df => exact ⟨rfl, rfl⟩
  · intro st st' cs ps latR lonR hs
    cases st with
    | none => simp [get_omoccurrences_min] at hs
    | some tbl => exact ⟨rfl, rfl⟩
  · intro src src' hs
    cases src with
    | none => simp [get_omcollections_table] at hs
    | some df => exact ⟨rfl, rfl⟩
  · intro src src' hs
    cases src with
    | none => simp [get_taxa_table] at hs
    | some df => exact ⟨rfl, rfl⟩
  · intro src src' i i' fuel fuel' hs
    obtain ⟨rounds, hr⟩ := Option.isSome_iff_exists.mp hs
    rw [get_taxaenumtree_cache_eq_result, hr]
    exact ⟨rfl, rfl⟩
  · intro src src' hs
    cases src with
    | none => simp [get_institutions_table] at hs
    | some df => exact ⟨rfl, rfl⟩

/-- Witness for C4: the rename leaves the integer-indexed `demoDf`
unchanged, and a second taxonunits run over the cache written by a first
run that fetched `demoDf` returns the same output with zero queries. -/
theorem cache_hit_no_refetch_witness :
    demoDf.rename institutions_mapper = demoDf ∧
    ((get_taxonunits_table (get_taxonunits_table none (some demoDf)).2.1
          none).1 = (get_taxonunits_table none (some demoDf)).1 ∧
      (get_taxonunits_table (get_taxonunits_table none (some demoDf)).2.1
          none).2.2 = 0) :=
  ⟨cache_hit_no_refetch.2.2.2.2.2.2.1 demoDf
    (by
      intro l hl
      rcases List.mem_cons.mp hl with rfl | hl
      · exact ⟨0, rfl⟩
      · rcases List.mem_singleton.mp hl with rfl
        exact ⟨1, rfl⟩),
   cache_hit_no_refetch.2.2.2.2.2.2.2.1 (some demoDf) none (by decide)⟩

lemma taxaRecurse_queries_ge (src : List Nat → Option TaxaTable) :
    ∀ (fuel : Nat) (acc : List TaxaTable) (q : Nat),
      q ≤ (taxaRecurse src fuel acc q).2 := by
  intro fuel
  induction fuel with
  | zero => intro acc q; exact Nat.le_refl q
  | succ fuel ih =>
    intro acc q
    by_cases he : nextFrontier acc.headI = []
    · rw [taxaRecurse_succ_empty _ _ _ he]
    · cases hs : src (nextFrontier acc.headI) with
      | none =>
        rw [taxaRecurse_succ_fail _ _ _ he hs]
        exact Nat.le_succ q
      | some rows =>
        rw [taxaRecurse_succ_step _ _ _ he hs]
        exact Nat.le_trans (Nat.le_succ q) (ih (rows :: acc) (q+1))

/-- C7: if a source query fails, the failure propagates (no result) and no
cache artifact is written for that table — the cache state after the call
equals the cache state before it, for every fetching operation, including a
resolver run whose failure happens in a later round after earlier queries
succeeded; and a failing source on a cache miss does propagate to a failed
result. -/
theorem no_cache_write_on_failure :
    (∀ cache src : Option Df, (get_taxonunits_table cache src).1 = none →
      (get_taxonunits_table cache src).2.1 = cache) ∧
    (∀ (cache st : Option (List OccRow)) (cs ps : List String)
      (latR lonR : ℚ × ℚ),
      (get_omoccurrences_min cache st cs ps latR lonR).1 = none →
      (get_omoccurrences_min cache st cs ps latR lonR).2.1 = cache) ∧
    (∀ cache src : Option (List CollRow),
      (get_omcollections_table cache src).1 = none →
      (get_omcollections_table cache src).2.1 = cache) ∧
    (∀ cache src : Option Df, (get_taxa_table cache src).1 = none →
      (get_taxa_table cache src).2.1 = cache) ∧
    (∀ (cache : Option ObjFrame)
      (src : List Nat → Option TaxaTable) (i : List Nat) (fuel : Nat),
      (get_taxaenumtree_table cache src i fuel).1 = none →
      (get_taxaenumtree_table cache src i fuel).2.1 = cache) ∧
    (∀ cache src : Option Df, (get_institutions_table cache src).1 = none →
      (get_institutions_table cache src).2.1 = cache) ∧
    get_taxonunits_table none none = (none, none, 1) ∧
    (∀ (i : List Nat) (fuel : Nat),
      get_taxaenumtree_table none (fun _ => none) i fuel =
        (none, none, 1)) ∧
    get_taxaenumtree_table none demoFailSrc [42] 5 = (none, none, 2) := by
  refine ⟨?_, ?_, ?_, ?_, ?_, ?_, rfl, fun i fuel => rfl, by decide⟩
  · intro cache src h
    cases cache with
    | some df => simp [get_taxonunits_table] at h
    | none =>
      cases src with
      | none => rfl
      | some df => simp [get_taxonunits_table] at h
  · intro cache st cs ps latR lonR h
    cases cache with
    | some df => simp [get_omoccurrences_min] at h
    | none =>
      cases st with
      | none => rfl
      | some tbl => simp [get_omoccurrences_min] at h
  · intro cache src h
    cases cache with
    | some df => simp [get_omcollections_table] at h
    | none =>
      cases src with
      | none => rfl
      | some df => simp [get_omcollections_table] at h
  · intro cache src h
    cases cache with
    | some df => simp [get_taxa_table] at h
    | none =>
      cases src with
      | none => rfl
      | some df => simp [get_taxa_table] at h
  · intro cache src i fuel h
    cases cache with
    | some df => simp [get_taxaenumtree_table] at h
    | none =>
      cases hsi : src i with
      | none => simp [get_taxaenumtree_table, hsi]
      | some first =>
        rcases hrun : taxaRecurse src fuel [first] 1 with ⟨r, q⟩
        cases r with
        | none => simp [get_taxaenumtree_table, hsi, hrun]
        | some rounds =>
          cases hff : taxaFinalFrame rounds.reverse with
          | none => simp [get_taxaenumtree_table, hsi, hrun, hff]
          | some df => simp [get_taxaenumtree_table, hsi, hrun, hff] at h
  · intro cache src h
    cases cache with
    | some df => simp [get_institutions_table] at h
    | none =>
      cases src with
      | none => rfl
      | some df => simp [get_institutions_table] at h

/-- Witness for C7: against the source that answers the round-0 query for
tid 42 and fails on the round-1 query for the parent 7, the resolver run on
a cache miss fails after two issued queries and writes no cache artifact. -/
theorem no_cache_write_on_failure_witness :
    (get_taxaenumtree_table none demoFailSrc [42] 5).2.1 = none :=
  no_cache_write_on_failure.2.2.2.2.1 none demoFailSrc [42] 5 (by decide)

/-- A record at coordinates (15, -95) with no region strings. -/
def demoOccInBox : OccRow :=
  ⟨1, some 1, none, some 15, some (-95), none, none⟩

/-- A record at coordinates (0, 0) with country "Unknown". -/
def demoOccUnknown : OccRow :=
  ⟨2, some 1, none, some 0, some 0, some "Unknown", none⟩

/-- A record with a null `collid` foreign key (all other fields null too). -/
def demoOccNullColl : OccRow :=
  ⟨3, none, none, none, none, none, none⟩

/-- C5: the occurrence extractor selects exactly the records whose
coordinates fall inside the configured bounding box, or whose lower-cased
country is in the given country set, or whose lower-cased state/province is
in the given state set.  Concretely, with box lat[10,20] × lon[-100,-90] a
record at (15, -95) is selected, and a record at (0, 0) with country
"Unknown" is selected when the country set contains "unknown" but not when
it contains only "Unknown". -/
theorem occurrence_filter_correct :
    (∀ (cs ps : List String) (lat0 lat1 lon0 lon1 : ℚ)
      (table : List OccRow) (r : OccRow),
      r ∈ omoccurrencesQuery cs ps lat0 lat1 lon0 lon1 table ↔
        r ∈ table ∧
          ((∃ la lo, r.decimalLatitude = some la ∧
              r.decimalLongitude = some lo ∧
              lat0 ≤ la ∧ la ≤ lat1 ∧ lon0 ≤ lo ∧ lo ≤ lon1) ∨
            (∃ c, r.country = some c ∧ strLower c ∈ cs) ∨
            (∃ s, r.stateProvince = some s ∧ strLower s ∈ ps))) ∧
    demoOccInBox ∈
      omoccurrencesQuery [] [] 10 20 (-100) (-90) [demoOccInBox] ∧
    demoOccUnknown ∈
      omoccurrencesQuery ["unknown"] [] 10 20 (-100) (-90)
        [demoOccUnknown] ∧
    demoOccUnknown ∉
      omoccurrencesQuery ["Unknown"] [] 10 20 (-100) (-90)
        [demoOccUnknown] := by
  refine ⟨?_, by decide, by decide, by decide⟩
  intro cs ps lat0 lat1 lon0 lon1 table r
  rw [omoccurrencesQuery, List.mem_filter]
  refine and_congr_right fun _ => ?_
  rcases r with ⟨ro, rc, rt, dlat, dlon, ctry, st⟩
  cases dlat <;> cases dlon <;> cases ctry <;> cases st <;>
    simp [occSelect, decide_eq_true_iff, and_assoc, or_assoc]

/-- C6 counterexample: the collection-identifier filter set derived at
main.py line 264 keeps a null `collid`: for the single occurrence row with
null `collid`, the null is a member of the filter set passed to the
collections fetch, so nulls are not excluded for every downstream
extractor. -/
theorem null_collid_not_excluded :
    (none : Option Nat) ∈ main_collids [demoOccNullColl] := by decide

/-- C6 (amended): the institutions filter set (from collection `iid`) and
the resolver's initial taxon set (from occurrence `tidinterpreted`) exclude
null foreign keys before querying — every member comes from a non-null
value — but the collections filter set (from occurrence `collid`) does not:
any occurrence row with null `collid` puts the null into the filter set. -/
theorem null_fk_exclusion :
    (∀ (cols : List CollRow) (x : Nat), x ∈ main_iids cols →
      ∃ r, r ∈ cols ∧ r.iid = some x) ∧
    (∀ (occ : List OccRow) (x : Nat), x ∈ main_occurrence_tids occ →
      ∃ r, r ∈ occ ∧ r.tidinterpreted = some x) ∧
    (∀ (occ : List OccRow) (r : OccRow), r ∈ occ → r.collid = none →
      (none : Option Nat) ∈ main_collids occ) := by
  refine ⟨?_, ?_, ?_⟩
  · intro cols x hx
    simp only [main_iids, List.mem_dedup, List.mem_filterMap] at hx
    exact hx
  · intro occ x hx
    simp only [main_occurrence_tids, List.mem_dedup, List.mem_filterMap]
      at hx
    exact hx
  · intro occ r hr hnone
    unfold main_collids
    exact List.mem_dedup.mpr (hnone ▸ List.mem_map_of_mem OccRow.collid hr)

/-- Witness for C6 (amended): institution id 9 in the filter set comes from
a collection row with `iid` 9, and the single null-`collid` occurrence row
puts the null into the collections filter set. -/
theorem null_fk_exclusion_witness :
    (∃ r, r ∈ [CollRow.mk 1 (some 9)] ∧ r.iid = some 9) ∧
    (none : Option Nat) ∈ main_collids [demoOccNullColl] :=
  ⟨null_fk_exclusion.1 [CollRow.mk 1 (some 9)] 9 (by decide),
   null_fk_exclusion.2.2 [demoOccNullColl] demoOccNullColl (by decide)
     (by decide)⟩

/-- C8: the Output Materializer creates the embedded database file from the
schema script exactly when the target file does not already exist; when a
file already exists — whatever its content, stale or incomplete — it is
kept unchanged and the step is silently skipped, returning normally rather
than erroring. -/
theorem output_create_iff_absent :
    (∀ s : String, main_materialize none s = sqlite_create_db s) ∧
    (∀ (db : SqliteDb) (s : String), main_materialize (some db) s = db) ∧
    main_materialize (some ⟨"stale schema"⟩) "current schema" =
      ⟨"stale schema"⟩ :=
  ⟨fun _ => rfl, fun _ _ => rfl, rfl⟩

/-- C9: `get_institutions_table` returns a table with exactly the column
labels of the table it loaded: the rename of "intialTimeStamp" applies to
the row-index axis (pandas default), never to the columns — even on a frame
whose index does carry a matching string label (where the index, not the
column, is renamed). -/
theorem institutions_rename_index_axis :
    (∀ (df : Df) (mapper : List (String × String)),
      (df.rename mapper).columns = df.columns ∧
        (df.rename mapper).cells = df.cells) ∧
    (∀ (cache src : Option Df) (df' : Df),
      (get_institutions_table cache src).1 = some df' →
      ∃ loaded, (cache = some loaded ∨ (cache = none ∧ src = some loaded)) ∧
        df' = loaded.rename institutions_mapper ∧
        df'.columns = loaded.columns) ∧
    Df.rename ⟨[.str "intialTimeStamp"], ["intialTimeStamp"], []⟩
        institutions_mapper =
      ⟨[.str "initialTimestamp"], ["intialTimeStamp"], []⟩ := by
  refine ⟨fun df mapper => ⟨rfl, rfl⟩, ?_, by decide⟩
  intro cache src df' h
  cases cache with
  | some df =>
    injection h with h
    exact ⟨df, Or.inl rfl, h.symm, by rw [← h]; rfl⟩
  | none =>
    cases src with
    | none => simp [get_institutions_table] at h
    | some df =>
      injection h with h
      exact ⟨df, Or.inr ⟨rfl, rfl⟩, h.symm, by rw [← h]; rfl⟩

/-- Witness for C9: loading the concrete cached artifact `demoDf` returns a
rename of it carrying exactly its column labels. -/
theorem institutions_rename_index_axis_witness :
    ∃ loaded,
      ((some demoDf = some loaded) ∨
        ((some demoDf : Option Df) = none ∧ (none : Option Df) = some loaded)) ∧
      demoDf.rename institutions_mapper = loaded.rename institutions_mapper ∧
      (demoDf.rename institutions_mapper).columns = loaded.columns :=
  institutions_rename_index_axis.2.1 (some demoDf) none
    (demoDf.rename institutions_mapper) (by decide)

/-- C10: with an empty identifier filter set — e.g. when every occurrence's
`tidinterpreted` is null, making the derived initial taxon set empty — the
generated round query contains an empty IN list ("where tid in ()") rather
than short-circuiting, and the operation issues at least one source query
on a cache miss: there is no guard against an empty filter set. -/
theorem empty_filter_set_no_guard :
    taxaenumtreeQuery ["tid", "parenttid"] [] =
      "select tid, parenttid from taxaenumtree where tid in ()" ∧
    (∀ occ : List OccRow, (∀ r ∈ occ, r.tidinterpreted = none) →
      main_occurrence_tids occ = []) ∧
    (∀ (src : List Nat → Option TaxaTable) (fuel : Nat),
      1 ≤ (get_taxaenumtree_table none src [] fuel).2.2) := by
  refine ⟨by decide, ?_, ?_⟩
  · intro occ hall
    unfold main_occurrence_tids
    rw [List.filterMap_eq_nil_iff.mpr hall]
    rfl
  · intro src fuel
    unfold get_taxaenumtree_table
    cases hs : src [] with
    | none => simp
    | some first =>
      rcases hrun : taxaRecurse src fuel [first] 1 with ⟨r, q⟩
      have hq : 1 ≤ q := by
        have hge := taxaRecurse_queries_ge src fuel [first] 1
        rw [hrun] at hge
        exact hge
      cases r with
      | none => simpa [hrun] using hq
      | some rounds =>
        cases hff : taxaFinalFrame rounds.reverse <;>
          simpa [hrun, hff] using hq

/-- Witness for C10: the occurrence row whose `tidinterpreted` is null
yields an empty initial taxon set. -/
theorem empty_filter_set_no_guard_witness :
    main_occurrence_tids [demoOccNullColl] = [] :=
  empty_filter_set_no_guard.2.1 [demoOccNullColl] (by decide)
